import Mathlib

/-!
Verification development for the session-orchestration engine of the
claude-commander repository.  The Rust sources are shallowly embedded:
pure functions become Lean functions on `String` / `List Char`, stateful
operations become explicit state passing over an `AppState` record, and
external processes (tmux, git, the filesystem) are modelled as explicit
oracle values describing the outcome of each invocation.  Machine
integers are modelled as `Nat`.  Timestamps (`Instant`, `DateTime`) and
content hashes are omitted from the embedded records: no embedded
function reads them.
-/

set_option maxRecDepth 4000

/-! ## Session model: `src/session/types.rs` -/

/-- Status of a worktree session (`SessionStatus` in `src/session/types.rs`). -/
inductive SessionStatus
  | Running
  | Paused
  | Stopped
deriving DecidableEq, Repr

/-- Source: `matches!(self, Self::Running | Self::Paused)`. -/
def SessionStatus.is_active : SessionStatus → Bool
  | .Running => true
  | .Paused => true
  | .Stopped => false

/-- Source: `matches!(self, Self::Running | Self::Paused)`. -/
def SessionStatus.can_attach : SessionStatus → Bool
  | .Running => true
  | .Paused => true
  | .Stopped => false

/-- Source: `matches!(self, Self::Running)`. -/
def SessionStatus.can_pause : SessionStatus → Bool
  | .Running => true
  | _ => false

/-- Source: `matches!(self, Self::Paused)`. -/
def SessionStatus.can_resume : SessionStatus → Bool
  | .Paused => true
  | _ => false

/-- Detected agent state (`AgentState` in `src/session/types.rs`). -/
inductive AgentState
  | WaitingForInput
  | Processing
  | Error
  | Unknown
deriving DecidableEq, Repr

/-! ## Error taxonomy: `src/error.rs`.
Payloads that are only carried for display (durations, paths) are
modelled as `Nat` / `String`. -/

/-- Session management errors (`SessionError` in `src/error.rs`).
`SessionId` payloads are modelled as `Nat`. -/
inductive SessionError
  | NotFound (sid : Nat)
  | AlreadyExists (name : String)
  | InvalidName (name : String) (reason : String)
  | InvalidState (sid : Nat)
  | CreationFailed (msg : String)
  | PersistenceFailed (msg : String)
  | ProjectNotFound (pid : String)
  | MaxSessionsReached (n : Nat)
  | TmuxSessionNotFound (name : String)
deriving DecidableEq, Repr

/-- Tmux integration errors (`TmuxError` in `src/error.rs`).
The `Timeout` payload is the timeout in milliseconds. -/
inductive TmuxError
  | NotInstalled
  | ServerNotRunning
  | CommandFailed (command : String) (stderr : String)
  | CaptureFailed (msg : String)
  | SessionNotFound (name : String)
  | Timeout (ms : Nat)
  | ParseError (msg : String)
  | SemaphoreError
  | PtyError (msg : String)
deriving DecidableEq, Repr

/-- Git operation errors (`GitError` in `src/error.rs`). -/
inductive GitError
  | NotARepository (path : String)
  | OperationFailed (msg : String)
  | WorktreeError (msg : String)
  | BranchExists (name : String)
  | BranchNotFound (name : String)
  | DiffFailed (msg : String)
  | Gix (msg : String)
  | InvalidRef (msg : String)
deriving DecidableEq, Repr

/-- Configuration errors (`ConfigError` in `src/error.rs`). -/
inductive ConfigError
  | LoadFailed (msg : String)
  | SaveFailed (msg : String)
  | InvalidValue (key : String) (reason : String)
  | FileNotFound (path : String)
  | DirectoryCreationFailed (path : String)
deriving DecidableEq, Repr

/-- Top-level error type (`Error` in `src/error.rs`); the `Io` and `Tui`
variants carry only a message here. -/
inductive Error
  | session (e : SessionError)
  | tmux (e : TmuxError)
  | git (e : GitError)
  | config (e : ConfigError)
  | io (msg : String)
  | tui (msg : String)
deriving DecidableEq, Repr

/-- Whether a top-level error is the `SessionError::InvalidState` kind. -/
def Error.isInvalidState : Error → Bool
  | .session (.InvalidState _) => true
  | _ => false

/-- Whether a top-level error is the `TmuxError::CommandFailed` kind. -/
def Error.isCommandFailed : Error → Bool
  | .tmux (.CommandFailed _ _) => true
  | _ => false

/-! ## Character model for `to_lowercase` / `is_alphanumeric`

`SessionManager::sanitize_name` calls Rust std's `str::to_lowercase` and
`char::is_alphanumeric`, which use the Unicode character tables.  The
models below are exact on the ASCII and Latin-1 ranges (code points up
to U+00FF, transcribed from the Unicode character database); above that
range `rustCharToLower` approximates the mapping as the identity and
`rustCharIsAlphanumeric` approximates the class as "not White_Space".
Every concrete input appearing in a theorem below lies within Latin-1,
and every universal theorem below uses these functions identically on
both sides of the comparison, so no theorem's truth depends on the
approximated region. -/

/-- ASCII uppercase letter test, on code points (A=65 .. Z=90). -/
def asciiUpper (c : Char) : Bool :=
  decide (65 ≤ c.toNat) && decide (c.toNat ≤ 90)

/-- Latin-1 uppercase letter test, on code points: U+00C0..U+00DE minus
the multiplication sign U+00D7. -/
def latin1Upper (c : Char) : Bool :=
  decide (192 ≤ c.toNat) && decide (c.toNat ≤ 222) && decide (c.toNat ≠ 215)

/-- Unicode `White_Space` test, transcribed from PropList.txt.  This is
the exact class used by Rust's `char::is_whitespace`, `str::trim` and
the regex crate's atom for whitespace. -/
def isWhiteSpaceChar (c : Char) : Bool :=
  let n := c.toNat
  (decide (9 ≤ n) && decide (n ≤ 13)) || decide (n = 32) || decide (n = 133) ||
  decide (n = 160) || decide (n = 5760) ||
  (decide (8192 ≤ n) && decide (n ≤ 8202)) || decide (n = 8232) ||
  decide (n = 8233) || decide (n = 8239) || decide (n = 8287) || decide (n = 12288)

/-- Model of the per-character action of Rust's `str::to_lowercase`:
uppercase ASCII and Latin-1 letters map down by 32 code points
(exact on Latin-1; identity above U+00FF, see the section comment). -/
def rustCharToLower (c : Char) : Char :=
  if asciiUpper c || latin1Upper c then Char.ofNat (c.toNat + 32) else c

/-- Model of Rust's `char::is_alphanumeric` (Unicode `Alphabetic` or
general categories Nd/Nl/No).  Exact on ASCII and Latin-1: digits,
letters, ordinal indicators U+00AA/U+00BA, micro sign U+00B5,
superscripts U+00B2/U+00B3/U+00B9 and fractions U+00BC..U+00BE.
Above U+00FF the class is approximated (see the section comment). -/
def rustCharIsAlphanumeric (c : Char) : Bool :=
  let n := c.toNat
  if decide (n ≤ 255) then
    (decide (48 ≤ n) && decide (n ≤ 57)) ||
    (decide (65 ≤ n) && decide (n ≤ 90)) ||
    (decide (97 ≤ n) && decide (n ≤ 122)) ||
    decide (n = 170) || decide (n = 181) || decide (n = 186) ||
    decide (n = 178) || decide (n = 179) || decide (n = 185) ||
    (decide (188 ≤ n) && decide (n ≤ 190)) ||
    (decide (192 ≤ n) && decide (n ≤ 214)) ||
    (decide (216 ≤ n) && decide (n ≤ 246)) ||
    (decide (248 ≤ n) && decide (n ≤ 255))
  else
    !(isWhiteSpaceChar c)

/-- Model of Rust's `str::to_lowercase` (exact for strings whose
characters lie in ASCII/Latin-1). -/
def rustToLowercase (s : String) : String :=
  String.mk (s.data.map rustCharToLower)

/-! ## Branch-name derivation: `src/session/manager.rs` -/

/-- The per-character replacement in `sanitize_name`:
`if c.is_alphanumeric() || c == '-' || c == '_' { c } else { '-' }`. -/
def sanitizeKeep (c : Char) : Char :=
  if rustCharIsAlphanumeric c || c = '-' || c = '_' then c else '-'

/-- Model of Rust's `str::trim_matches('-')`: remove every leading and
trailing `-`. -/
def trimDashList (l : List Char) : List Char :=
  ((l.dropWhile (· = '-')).reverse.dropWhile (· = '-')).reverse

/-- `SessionManager::sanitize_name`: lowercase, map every character that
is not alphanumeric/`-`/`_` to `-`, then trim `-` from both ends. -/
def sanitize_name (name : String) : String :=
  String.mk (trimDashList ((rustToLowercase name).data.map sanitizeKeep))

/-- `SessionManager::generate_branch_name`: prepend the configured
branch prefix (a slash-separated component) unless it is empty.
`prefixCfg` stands for `self.config.branch_prefix`. -/
def generate_branch_name (prefixCfg : String) (title : String) : String :=
  if prefixCfg = "" then sanitize_name title
  else prefixCfg ++ "/" ++ sanitize_name title

/-- The branch derivation written exactly from the claim's words, with
the character class the claim states: ASCII alphanumeric. -/
def claim_sanitise_ascii (title : String) : String :=
  String.mk (trimDashList ((title.data.map (fun c =>
    if asciiUpper c then Char.ofNat (c.toNat + 32) else c)).map (fun c =>
      if ((48 ≤ c.toNat && c.toNat ≤ 57) || (65 ≤ c.toNat && c.toNat ≤ 90) ||
          (97 ≤ c.toNat && c.toNat ≤ 122)) || c = '-' || c = '_' then c else '-')))

/-- The branch derivation written from the spec's words but with the
implementation's (Unicode) alphanumeric class: lowercase; each character
that is not alphanumeric, `-` or `_` becomes `-`; leading and trailing
`-` stripped. -/
def spec_sanitise_unicode (title : String) : String :=
  String.mk (trimDashList ((title.data.map rustCharToLower).map (fun c =>
    if rustCharIsAlphanumeric c || c = '-' || c = '_' then c else '-')))

/-! ## Persistence trace model: `AppState::save_to` in `src/config/storage.rs`

`save_to` performs filesystem side effects; the embedding records the
sequence of filesystem mutations the success path performs. -/

/-- A filesystem mutation performed by the storage layer. -/
inductive FsOp
  | createDirAll (path : String)
  | writeFile (path : String) (content : String)
  | rename (src : String) (dst : String)
deriving DecidableEq, Repr

/-- Whether a filesystem operation is a rename. -/
def FsOp.isRename : FsOp → Bool
  | .rename _ _ => true
  | _ => false

/-- Model of `std::path::Path::parent` for forward-slash paths without a
trailing slash (the shape of every state-file path the program builds):
`none` for the empty path and for the root, the prefix before the last
slash otherwise (the empty string when there is no slash). -/
def parentDir (path : String) : Option String :=
  if path = "" || path = "/" then none
  else
    match path.data.reverse.dropWhile (· ≠ '/') with
    | [] => some ""
    | ['/'] => some "/"
    | _ :: rest => some (String.mk rest.reverse)

/-- `AppState::save_to(path)` as a trace of filesystem mutations:
`create_dir_all` on the parent directory (when there is one) followed by
a single direct `std::fs::write` of the serialised document to `path`.
`content` stands for `serde_json::to_string_pretty(self)`.  The error
paths (directory creation or write failure, both surfaced as
`ConfigError::SaveFailed`) abort the trace and are not modelled here. -/
def AppState.save_to (path : String) (content : String) : List FsOp :=
  (match parentDir path with
   | some parent => [FsOp.createDirAll parent]
   | none => []) ++ [FsOp.writeFile path content]

/-- `true` when no operation in the trace writes directly to `path`. -/
def noWriteTo (path : String) (ops : List FsOp) : Bool :=
  ops.all fun op =>
    match op with
    | .writeFile p _ => decide (p ≠ path)
    | _ => true

/-- The claim's notion of an atomic save: the content is written to the
temporary sibling `<path>.tmp`, that temporary is renamed over `path`,
and the target path itself is never written directly. -/
def atomicTmpRenameSave (path content : String) (ops : List FsOp) : Prop :=
  FsOp.writeFile (path ++ ".tmp") content ∈ ops ∧
  FsOp.rename (path ++ ".tmp") path ∈ ops ∧
  noWriteTo path ops = true

/-! ## Activity classifier: `StateDetector` in `src/tmux/state.rs`

The detector joins the last `analyze_lines` lines of the captured text
and runs three fixed regex lists over the result.  Each regex is
embedded as a decidable matcher on `List Char` with the semantics of the
Rust regex crate: `^`/`$` anchor at the start/end of the haystack, or at
line boundaries for the patterns compiled with `(?m)`; `.` matches any
character except `\n`; the whitespace atom is Unicode `White_Space`.
`(?i)` is modelled as ASCII case folding, exact for haystacks that do
not contain U+212A or U+017F (the only characters outside ASCII that
case-fold to an ASCII letter). -/

/-- ASCII lowercasing of one character, used for case-insensitive
matching. -/
def asciiLowerChar (c : Char) : Char :=
  if asciiUpper c then Char.ofNat (c.toNat + 32) else c

/-- Case-insensitive prefix test; the pattern is given lowercase. -/
def startsWithCI : List Char → List Char → Bool
  | [], _ => true
  | _ :: _, [] => false
  | p :: ps, c :: cs => decide (asciiLowerChar c = p) && startsWithCI ps cs

/-- Case-insensitive substring test; the pattern is given lowercase. -/
def containsCI (pat : List Char) : List Char → Bool
  | [] => pat.isEmpty
  | c :: cs => startsWithCI pat (c :: cs) || containsCI pat cs

/-- Matcher for `a.?b` (case-insensitive): the two pattern words with at
most one intervening character, which may not be a newline. -/
def containsGapCI (a b : List Char) : List Char → Bool
  | [] => false
  | c :: cs =>
    (startsWithCI a (c :: cs) &&
      (startsWithCI b ((c :: cs).drop a.length) ||
        (match (c :: cs).drop a.length with
         | [] => false
         | d :: ds => decide (d ≠ '\n') && startsWithCI b ds))) ||
    containsGapCI a b cs

/-- Exact prefix test on character lists. -/
def startsWithL : List Char → List Char → Bool
  | [], _ => true
  | _ :: _, [] => false
  | p :: ps, c :: cs => decide (c = p) && startsWithL ps cs

/-- Exact substring test on character lists. -/
def containsL (pat : List Char) : List Char → Bool
  | [] => pat.isEmpty
  | c :: cs => startsWithL pat (c :: cs) || containsL pat cs

/-- Split a character list at every occurrence of `sep`; like Rust's
`str::split(sep)`, the result always has one more segment than there
are separators. -/
def splitOnChar (sep : Char) : List Char → List (List Char)
  | [] => [[]]
  | c :: cs =>
    if c = sep then [] :: splitOnChar sep cs
    else
      match splitOnChar sep cs with
      | [] => [[c]]
      | s :: ss => (c :: s) :: ss

/-- Split a character list at every newline (`str::split('\n')`). -/
def splitOnNl : List Char → List (List Char) :=
  splitOnChar '\n'

/-- Strip one trailing carriage return: the `\r` of a `\r\n` line
terminator. -/
def stripCr (s : List Char) : List Char :=
  match s.getLast? with
  | some '\r' => s.dropLast
  | _ => s

/-- Model of Rust's `str::lines`: lines are split at `\n` or `\r\n`
terminators, which are not included in the lines; a final segment not
terminated by a newline is returned as-is, so a bare trailing `\r` is
kept (`"baz\r"` yields the single line `"baz\r"`). -/
def rustLinesL (l : List Char) : List (List Char) :=
  if l = [] then []
  else
    let segs := splitOnNl l
    if l.getLast? = some '\n' then (segs.dropLast).map stripCr
    else (segs.dropLast).map stripCr ++ (segs.getLast?).toList

/-- The ERROR_PATTERNS list.  These patterns are compiled without
`(?m)`, so `^` anchors only at the start of the joined haystack:
`(?i)^error:`, `(?i)^fatal:`, `(?i)^exception:`, `(?i)traceback`,
`(?i)panic:`, `(?i)rate.?limit`, `(?i)api.?error`. -/
def errMatchesL (r : List Char) : Bool :=
  startsWithCI "error:".data r || startsWithCI "fatal:".data r ||
  startsWithCI "exception:".data r || containsCI "traceback".data r ||
  containsCI "panic:".data r || containsGapCI "rate".data "limit".data r ||
  containsGapCI "api".data "error".data r

/-- The braille spinner class `[⠋⠙⠹⠸⠼⠴⠦⠧⠇⠏]`. -/
def isSpinnerChar (c : Char) : Bool :=
  c = '⠋' || c = '⠙' || c = '⠹' || c = '⠸' || c = '⠼' ||
  c = '⠴' || c = '⠦' || c = '⠧' || c = '⠇' || c = '⠏'

/-- One-position test for `(?i)(thinking|processing|running|loading)\.{1,3}`:
a match exists at a position iff one of the words, followed by at least
one literal dot, starts there. -/
def loadingWordAt (l : List Char) : Bool :=
  startsWithCI "thinking.".data l || startsWithCI "processing.".data l ||
  startsWithCI "running.".data l || startsWithCI "loading.".data l

/-- Substring matcher for the loading-indicator pattern. -/
def loadingMatch : List Char → Bool
  | [] => false
  | c :: cs => loadingWordAt (c :: cs) || loadingMatch cs

/-- Tail of the progress-bar pattern `\[=+>?\s*\]` after the opening
bracket: one or more `=`, an optional `>`, whitespace, `]`.  The scan is
deterministic because `=`, `>` and `]` are not whitespace. -/
def progressEqTail (l : List Char) : Bool :=
  match l with
  | '=' :: rest =>
    let r1 := rest.dropWhile (· = '=')
    let r2 := match r1 with
      | '>' :: t => t
      | _ => r1
    match r2.dropWhile isWhiteSpaceChar with
    | ']' :: _ => true
    | _ => false
  | _ => false

/-- Substring matcher for `\[=+>?\s*\]`. -/
def progressEqMatch : List Char → Bool
  | [] => false
  | c :: cs => (decide (c = '[') && progressEqTail cs) || progressEqMatch cs

/-- Tail of the progress-bar pattern `\[#+\s*\]` after the opening
bracket. -/
def progressHashTail (l : List Char) : Bool :=
  match l with
  | '#' :: rest =>
    match (rest.dropWhile (· = '#')).dropWhile isWhiteSpaceChar with
    | ']' :: _ => true
    | _ => false
  | _ => false

/-- Substring matcher for `\[#+\s*\]`. -/
def progressHashMatch : List Char → Bool
  | [] => false
  | c :: cs => (decide (c = '[') && progressHashTail cs) || progressHashMatch cs

/-- Line matcher for the token-streaming pattern
`(?m)^[^$>\n]{10,}[^\n\s]$`: the whole line is at least 11 characters,
every character except the last avoids `$` and `>`, and the last
character is not whitespace. -/
def streamingSeg (seg : List Char) : Bool :=
  decide (11 ≤ seg.length) &&
  seg.dropLast.all (fun c => decide (c ≠ '$') && decide (c ≠ '>')) &&
  (match seg.getLast? with
   | some c => !isWhiteSpaceChar c
   | none => false)

/-- The PROCESSING_PATTERNS list: spinner glyphs, loading words with
dots, the two progress-bar shapes, and the streaming heuristic. -/
def procMatchesL (r : List Char) : Bool :=
  r.any isSpinnerChar || loadingMatch r || progressEqMatch r ||
  progressHashMatch r || (splitOnNl r).any streamingSeg

/-- `true` when every character is whitespace. -/
def allWs (l : List Char) : Bool := l.all isWhiteSpaceChar

/-- Line matcher for `(?m)^>\s*$`. -/
def gtPromptSeg : List Char → Bool
  | '>' :: rest => allWs rest
  | _ => false

/-- Line matcher for `(?m)^claude>\s*$`. -/
def claudePromptSeg (seg : List Char) : Bool :=
  startsWithL "claude>".data seg && allWs (seg.drop 7)

/-- Line matcher for `(?m)^\$ $`: exactly a dollar and one space. -/
def dollarSpaceSeg (seg : List Char) : Bool :=
  decide (seg = ['$', ' '])

/-- Line matcher for `(?m)^aider>\s*$`. -/
def aiderPromptSeg (seg : List Char) : Bool :=
  startsWithL "aider>".data seg && allWs (seg.drop 6)

/-- Scan for the closing `───` of the separator pattern followed only by
whitespace. -/
def dashSepTail : List Char → Bool
  | [] => false
  | c :: cs =>
    (startsWithL "───".data (c :: cs) && allWs ((c :: cs).drop 3)) || dashSepTail cs

/-- Line matcher for `(?m)^───.*───\s*$`. -/
def dashSepSeg (seg : List Char) : Bool :=
  startsWithL "───".data seg && dashSepTail (seg.drop 3)

/-- First occurrence helper: the remainder of the list after the first
occurrence of `ch`, if any. -/
def afterFirst (ch : Char) : List Char → Option (List Char)
  | [] => none
  | c :: cs => if c = ch then some cs else afterFirst ch cs

/-- Line matcher for `(?m)^[^>\n]*>\s*$`: the line has a `>` and only
whitespace follows the first one. -/
def genericGtSeg (seg : List Char) : Bool :=
  match afterFirst '>' seg with
  | some rest => allWs rest
  | none => false

/-- Line matcher for `(?m)^[^$\n]*\$\s*$`. -/
def genericDollarSeg (seg : List Char) : Bool :=
  match afterFirst '$' seg with
  | some rest => allWs rest
  | none => false

/-- The PROMPT_PATTERNS list, all compiled with `(?m)`: a match exists
iff some line of the haystack matches one of the seven shapes. -/
def promptMatchesL (r : List Char) : Bool :=
  (splitOnNl r).any fun seg =>
    gtPromptSeg seg || claudePromptSeg seg || dollarSpaceSeg seg ||
    aiderPromptSeg seg || dashSepSeg seg || genericGtSeg seg ||
    genericDollarSeg seg

/-- Captured pane content (`CapturedContent` in `src/tmux/capture.rs`).
The hash, capture timestamp and line count are omitted: `detect` reads
only the text. -/
structure CapturedContent where
  content : String
deriving DecidableEq, Repr

/-- The state detector (`StateDetector` in `src/tmux/state.rs`). -/
structure StateDetector where
  analyze_lines : Nat
deriving DecidableEq, Repr

/-- `StateDetector::new()`: analyse the last 50 lines. -/
def StateDetector.new : StateDetector := ⟨50⟩

/-- The last `n` elements of a list; models `lines[start..]` with
`start = lines.len().saturating_sub(n)`. -/
def lastN (n : Nat) (l : List (List Char)) : List (List Char) :=
  l.drop (l.length - n)

/-- Join lines with `\n`; models `Vec::join("\n")`. -/
def joinNl : List (List Char) → List Char
  | [] => []
  | [s] => s
  | s :: ss => s ++ '\n' :: joinNl ss

/-- The joined tail of the capture that `detect` analyses:
`lines[start..].join("\n")`. -/
def StateDetector.recentContent (d : StateDetector) (content : CapturedContent) : List Char :=
  joinNl (lastN d.analyze_lines (rustLinesL content.content.data))

/-- `StateDetector::detect`: errors first, then processing indicators,
then prompt patterns, otherwise unknown. -/
def StateDetector.detect (d : StateDetector) (content : CapturedContent) : AgentState :=
  let r := d.recentContent content
  if errMatchesL r then .Error
  else if procMatchesL r then .Processing
  else if promptMatchesL r then .WaitingForInput
  else .Unknown

/-- Which pattern list (if any) accepts the analysed tail, per state;
`Unknown` is the default and always applies. -/
def stateMatchesRecent (r : List Char) : AgentState → Bool
  | .Error => errMatchesL r
  | .Processing => procMatchesL r
  | .WaitingForInput => promptMatchesL r
  | .Unknown => true

/-- The priority order of the classifier, highest first:
error > processing > waiting-for-input > unknown. -/
def statePriority : AgentState → Nat
  | .Error => 3
  | .Processing => 2
  | .WaitingForInput => 1
  | .Unknown => 0

/-! ## Session store: `src/session/types.rs` and `src/config/storage.rs`

`ProjectId` / `SessionId` are opaque 128-bit values; they are modelled
as `Nat`.  The two `HashMap`s of `AppState` are modelled as association
lists; `mapInsert` replaces an existing binding in place, matching
`HashMap::insert`.  Creation timestamps and the remembered state path
are omitted: no embedded operation reads them. -/

/-- Lookup in an association list (models `HashMap::get`). -/
def mapGet {α : Type} (m : List (Nat × α)) (k : Nat) : Option α :=
  (m.find? fun e => e.1 = k).map (·.2)

/-- Insert-or-replace in an association list (models `HashMap::insert`). -/
def mapInsert {α : Type} (m : List (Nat × α)) (k : Nat) (v : α) : List (Nat × α) :=
  if m.any (fun e => e.1 = k) then
    m.map fun e => if e.1 = k then (k, v) else e
  else m ++ [(k, v)]

/-- Removal from an association list (models `HashMap::remove`). -/
def mapRemove {α : Type} (m : List (Nat × α)) (k : Nat) : List (Nat × α) :=
  m.filter fun e => e.1 ≠ k

/-- In-place update of one binding (models `HashMap::get_mut` followed
by a mutation of the entry). -/
def mapUpdate {α : Type} (m : List (Nat × α)) (k : Nat) (f : α → α) : List (Nat × α) :=
  m.map fun e => if e.1 = k then (e.1, f e.2) else e

/-- A registered repository (`Project` in `src/session/types.rs`). -/
structure Project where
  id : Nat
  name : String
  repo_path : String
  main_branch : String
  worktrees : List Nat
deriving DecidableEq, Repr

/-- `Project::new`: fresh project with no worktree sessions.  The random
id is passed explicitly. -/
def Project.new (id : Nat) (name repo_path main_branch : String) : Project :=
  ⟨id, name, repo_path, main_branch, []⟩

/-- `Project::add_worktree`: append the session id unless it is already
present. -/
def Project.add_worktree (p : Project) (session_id : Nat) : Project :=
  if session_id ∈ p.worktrees then p
  else { p with worktrees := p.worktrees ++ [session_id] }

/-- `Project::remove_worktree`: retain every other id. -/
def Project.remove_worktree (p : Project) (session_id : Nat) : Project :=
  { p with worktrees := p.worktrees.filter (· ≠ session_id) }

/-- A worktree session (`WorktreeSession` in `src/session/types.rs`);
timestamps omitted. -/
structure WorktreeSession where
  id : Nat
  project_id : Nat
  title : String
  branch : String
  worktree_path : String
  status : SessionStatus
  agent_state : AgentState
  program : String
  tmux_session_name : String
  base_commit : Option String
deriving DecidableEq, Repr

/-- The persistent application state (`AppState` in
`src/config/storage.rs`). -/
structure AppState where
  projects : List (Nat × Project)
  sessions : List (Nat × WorktreeSession)
  seen_help : Bool
  last_selected_project : Option Nat
  last_selected_session : Option Nat
  version : String
deriving DecidableEq, Repr

/-- Stand-in for `env!("CARGO_PKG_VERSION")`. -/
def appVersion : String := "0.1.0"

/-- `AppState::new()`: empty state. -/
def AppState.new : AppState := ⟨[], [], false, none, none, appVersion⟩

/-- `AppState::add_project`. -/
def AppState.add_project (st : AppState) (project : Project) : AppState :=
  { st with projects := mapInsert st.projects project.id project }

/-- `AppState::remove_project`: remove the project and every session
listed in its child list. -/
def AppState.remove_project (st : AppState) (project_id : Nat) : AppState :=
  match mapGet st.projects project_id with
  | none => st
  | some p =>
    { st with
      projects := mapRemove st.projects project_id,
      sessions := p.worktrees.foldl (fun ss sid => mapRemove ss sid) st.sessions }

/-- `AppState::add_session`: insert the session, then attach its id to
the parent project's child list (when the parent exists). -/
def AppState.add_session (st : AppState) (session : WorktreeSession) : AppState :=
  let st1 := { st with sessions := mapInsert st.sessions session.id session }
  match mapGet st1.projects session.project_id with
  | some _ =>
    { st1 with
      projects := mapUpdate st1.projects session.project_id
        (fun p => p.add_worktree session.id) }
  | none => st1

/-- `AppState::remove_session`: remove the session and unlink it from
its parent project. -/
def AppState.remove_session (st : AppState) (session_id : Nat) : AppState :=
  match mapGet st.sessions session_id with
  | none => st
  | some s =>
    let st1 := { st with sessions := mapRemove st.sessions session_id }
    { st1 with
      projects := mapUpdate st1.projects s.project_id
        (fun p => p.remove_worktree session_id) }

/-- `AppState::get_session`. -/
def AppState.get_session (st : AppState) (id : Nat) : Option WorktreeSession :=
  mapGet st.sessions id

/-- `AppState::get_project`. -/
def AppState.get_project (st : AppState) (id : Nat) : Option Project :=
  mapGet st.projects id

/-- `AppState::get_active_sessions`: every session whose status is
active (the iteration order of `HashMap::values` is modelled by the
list order). -/
def AppState.get_active_sessions (st : AppState) : List WorktreeSession :=
  (st.sessions.map (·.2)).filter fun s => s.status.is_active

/-- One mutation of the store, as issued by the program:
`add_project` always receives a `Project::new` value (empty child
list), mirroring `SessionManager::add_project`. -/
inductive StoreOp
  | addProject (id : Nat) (name repo_path main_branch : String)
  | removeProject (project_id : Nat)
  | addSession (session : WorktreeSession)
  | removeSession (session_id : Nat)

/-- Apply one store operation. -/
def applyOp (st : AppState) : StoreOp → AppState
  | .addProject id name repo main => st.add_project (Project.new id name repo main)
  | .removeProject pid => st.remove_project pid
  | .addSession s => st.add_session s
  | .removeSession sid => st.remove_session sid

/-- Apply a sequence of store operations. -/
def applyOps (st : AppState) (ops : List StoreOp) : AppState :=
  ops.foldl applyOp st

/-- The C8 invariant: no project's child list contains a duplicate
session id. -/
def projChildrenNodup (st : AppState) : Prop :=
  ∀ e ∈ st.projects, e.2.worktrees.Nodup

/-! ## Session manager lifecycle operations: `src/session/manager.rs`

Each operation is embedded as a function of the current store plus
explicit oracle values for the outcome of every external call it makes
(tmux commands, git, `AppState::save`).  It returns the `Result` of the
Rust function together with the in-memory store left behind — the Rust
code mutates the store behind a lock before `save()?`, so a persistence
failure surfaces the error while keeping the mutation. -/

/-- Overwrite the status of one session: models
`get_session_mut(...).set_status(status)` (the `last_active_at` touch is
omitted). -/
def setSessionStatus (st : AppState) (sid : Nat) (status : SessionStatus) : AppState :=
  { st with sessions := mapUpdate st.sessions sid fun s => { s with status := status } }

/-- Overwrite the agent state of one session: models
`get_session_mut(...).set_agent_state(a)`. -/
def setAgentState (st : AppState) (sid : Nat) (a : AgentState) : AppState :=
  { st with sessions := mapUpdate st.sessions sid fun s => { s with agent_state := a } }

/-- `SessionManager::pause_session`.  `saveRes` is the outcome of
`state.save()` (`none` = success). -/
def pause_session (st : AppState) (session_id : Nat) (saveRes : Option ConfigError) :
    Except Error Unit × AppState :=
  match st.get_session session_id with
  | none => (.error (.session (.NotFound session_id)), st)
  | some s =>
    if !s.status.can_pause then
      (.error (.session (.InvalidState session_id)), st)
    else
      let st' := setSessionStatus st session_id .Paused
      match saveRes with
      | some e => (.error (.config e), st')
      | none => (.ok (), st')

/-- `SessionManager::resume_session`.  `existsRes` is the outcome of
`tmux.session_exists`, `createRes` of `tmux.create_session` (consulted
only when the tmux session is gone), `saveRes` of `state.save()`. -/
def resume_session (st : AppState) (session_id : Nat)
    (existsRes : Except Error Bool) (createRes : Except Error Unit)
    (saveRes : Option ConfigError) : Except Error Unit × AppState :=
  match st.get_session session_id with
  | none => (.error (.session (.NotFound session_id)), st)
  | some s =>
    if !s.status.can_resume then
      (.error (.session (.InvalidState session_id)), st)
    else
      match existsRes with
      | .error e => (.error e, st)
      | .ok ex =>
        match if ex then Except.ok () else createRes with
        | .error e => (.error e, st)
        | .ok _ =>
          let st' := setSessionStatus st session_id .Running
          match saveRes with
          | some e => (.error (.config e), st')
          | none => (.ok (), st')

/-- `SessionManager::get_attach_command`.  `existsRes` is the outcome of
`tmux.session_exists`, `paneDeadRes` of `tmux.is_pane_dead` (the code
applies `unwrap_or(false)`); the `let _ = state.save()` results and the
best-effort `kill_session` on a dead pane are ignored by the code and
therefore not parameters. -/
def get_attach_command (st : AppState) (session_id : Nat)
    (existsRes : Except Error Bool) (paneDeadRes : Except Error Bool) :
    Except Error String × AppState :=
  match st.get_session session_id with
  | none => (.error (.session (.NotFound session_id)), st)
  | some s =>
    if !s.status.can_attach then
      (.error (.session (.InvalidState session_id)), st)
    else
      match existsRes with
      | .error e => (.error e, st)
      | .ok ex =>
        if !ex then
          let st' := setSessionStatus st session_id .Stopped
          (.error (.session (.TmuxSessionNotFound s.tmux_session_name)), st')
        else
          let pane_dead := (paneDeadRes.toOption).getD false
          if pane_dead then
            let st' := setSessionStatus st session_id .Stopped
            (.error (.session (.TmuxSessionNotFound
              (s.tmux_session_name ++ " (program exited)"))), st')
          else
            (.ok ("tmux attach-session -t " ++ s.tmux_session_name), st)

/-- `SessionManager::kill_session`.  `killRes` is the outcome of the
best-effort `tmux.kill_session` (logged and ignored), `openOk` whether
`GitBackend::open` succeeded (a failure is silently skipped),
`worktreesDirRes` the outcome of `config.worktrees_dir()` (its error
propagates via `?`), `removeRes` the best-effort worktree removal
(logged and ignored), `saveRes` the outcome of `state.save()`. -/
def kill_session (st : AppState) (session_id : Nat) (remove_worktree : Bool)
    (killRes : Except Error Unit) (openOk : Bool)
    (worktreesDirRes : Except ConfigError String) (removeRes : Except Error Unit)
    (saveRes : Option ConfigError) : Except Error Unit × AppState :=
  match st.get_session session_id with
  | none => (.error (.session (.NotFound session_id)), st)
  | some s =>
    let _bestEffortKill := killRes
    let _bestEffortRemove := removeRes
    let earlyConfigErr : Option ConfigError :=
      if remove_worktree then
        match st.get_project s.project_id with
        | some _ =>
          if openOk then
            match worktreesDirRes with
            | .error e => some e
            | .ok _ => none
          else none
        | none => none
      else none
    match earlyConfigErr with
    | some e => (.error (.config e), st)
    | none =>
      let st' := setSessionStatus st session_id .Stopped
      match saveRes with
      | some e => (.error (.config e), st')
      | none => (.ok (), st')

/-- `SessionManager::update_all_states`: collect the ids of the active
sessions, then for each id run state detection (`detectRes` gives the
outcome per session id) and store the result; a detection failure skips
that session.  The function always returns `Ok(())`. -/
def update_all_states (st : AppState) (detectRes : Nat → Except Error AgentState) :
    Except Error Unit × AppState :=
  let session_ids := st.get_active_sessions.map (·.id)
  (.ok (), session_ids.foldl
    (fun acc sid =>
      match detectRes sid with
      | .ok a => setAgentState acc sid a
      | .error _ => acc) st)

/-! ## Tmux executor: `src/tmux/executor.rs`

`execute` spawns a tmux process under a timeout; the outcome of that
spawn is an explicit oracle value.  The semaphore is not modelled (its
acquisition fails only when the semaphore is closed, which the program
never does). -/

/-- Outcome of running one tmux command: the process completed with an
exit status and captured output, the spawn itself failed, or the 5 s
timeout expired. -/
inductive CmdOutcome
  | completed (success : Bool) (stdout stderr : String)
  | spawnFailed (msg : String)
  | timedOut
deriving DecidableEq, Repr

/-- The executor (`TmuxExecutor`); only the timeout is carried, in
milliseconds. -/
structure TmuxExecutor where
  timeoutMs : Nat
deriving DecidableEq, Repr

/-- `TmuxExecutor::new()` with the default 5 s timeout. -/
def TmuxExecutor.new : TmuxExecutor := ⟨5000⟩

/-- Join command arguments with spaces (models `args.join(" ")`). -/
def joinSp : List String → String
  | [] => ""
  | [s] => s
  | s :: ss => s ++ " " ++ joinSp ss

/-- `TmuxExecutor::execute`: success yields stdout; a non-zero exit or a
spawn failure yields `CommandFailed`; expiry yields `Timeout`. -/
def TmuxExecutor.execute (e : TmuxExecutor) (args : List String)
    (outcome : CmdOutcome) : Except Error String :=
  match outcome with
  | .completed true out _ => .ok out
  | .completed false _ stderr =>
    .error (.tmux (.CommandFailed ("tmux " ++ joinSp args) stderr))
  | .spawnFailed msg =>
    .error (.tmux (.CommandFailed ("tmux " ++ joinSp args) msg))
  | .timedOut => .error (.tmux (.Timeout e.timeoutMs))

/-- `TmuxExecutor::session_exists`: run `has-session`; success means the
session exists, a `CommandFailed` outcome means it does not, any other
error propagates. -/
def TmuxExecutor.session_exists (e : TmuxExecutor) (session_name : String)
    (outcome : CmdOutcome) : Except Error Bool :=
  match e.execute ["has-session", "-t", session_name] outcome with
  | .ok _ => .ok true
  | .error (.tmux (.CommandFailed _ _)) => .ok false
  | .error err => .error err

/-! ## Diff computation: `compute_diff_for_path` and `parse_diff_stat`
in `src/git/diff.rs`

The function runs four kinds of git commands; their outcomes form the
oracle environment.  `git diff --no-index` is consulted once per
untracked file; its stdout is used whatever the exit status (the command
exits 1 when the files differ), and a spawn failure skips the file. -/

/-- Outcome of spawning one git command: either the process ran
(carrying whether the exit status was success, plus stdout), or the
spawn failed. -/
inductive Spawn
  | ran (success : Bool) (stdout : String)
  | failed (msg : String)
deriving DecidableEq, Repr

/-- The git commands `compute_diff_for_path` issues in one run. -/
structure GitEnv where
  diffHead : Spawn
  lsFiles : Spawn
  diffNoIndex : String → Spawn
  diffStat : Spawn

/-- Computed diff information (`DiffInfo` in `src/git/diff.rs`);
`computed_at` omitted. -/
structure DiffInfo where
  diff : String
  files_changed : Nat
  lines_added : Nat
  lines_removed : Nat
  line_count : Nat
  base_commit : String
deriving DecidableEq, Repr

/-- Model of Rust's `str::lines` on strings. -/
def rustLines (s : String) : List String :=
  (rustLinesL s.data).map String.mk

/-- Model of Rust's `str::trim` (strip Unicode whitespace from both
ends). -/
def rustTrim (s : String) : String :=
  String.mk (((s.data.dropWhile isWhiteSpaceChar).reverse.dropWhile isWhiteSpaceChar).reverse)

/-- Model of `str::split_whitespace().next()`: the first maximal run of
non-whitespace characters, if any. -/
def splitWhitespaceFirst (s : String) : Option String :=
  let l := s.data.dropWhile isWhiteSpaceChar
  if l.isEmpty then none
  else some (String.mk (l.takeWhile fun c => !isWhiteSpaceChar c))

/-- ASCII digit test. -/
def isAsciiDigit (c : Char) : Bool :=
  decide (48 ≤ c.toNat) && decide (c.toNat ≤ 57)

/-- Digit-list to number conversion. -/
def digitsToNat (l : List Char) : Nat :=
  l.foldl (fun acc c => acc * 10 + (c.toNat - 48)) 0

/-- Model of Rust's `str::parse::<usize>()`: an optional leading `+`,
then one or more ASCII digits, value within 64 bits; anything else is a
parse error. -/
def parseUsize (s : String) : Option Nat :=
  let l := match s.data with
    | '+' :: rest => rest
    | l => l
  if !l.isEmpty && l.all isAsciiDigit && decide (digitsToNat l < 18446744073709551616) then
    some (digitsToNat l)
  else none

/-- Model of `str::ends_with` for string patterns. -/
def strEndsWith (s pat : String) : Bool :=
  startsWithL pat.data.reverse s.data.reverse

/-- One pass of `parse_diff_stat` over the comma-separated parts of the
summary line, carrying `(files_changed, lines_added, lines_removed)`. -/
def parseStatParts (parts : List String) : Nat × Nat × Nat :=
  parts.foldl
    (fun acc part =>
      let part := rustTrim part
      if containsL "file".data part.data then
        match splitWhitespaceFirst part with
        | some num => ((parseUsize num).getD 0, acc.2.1, acc.2.2)
        | none => acc
      else if containsL "insertion".data part.data then
        match splitWhitespaceFirst part with
        | some num => (acc.1, (parseUsize num).getD 0, acc.2.2)
        | none => acc
      else if containsL "deletion".data part.data then
        match splitWhitespaceFirst part with
        | some num => (acc.1, acc.2.1, (parseUsize num).getD 0)
        | none => acc
      else acc)
    (0, 0, 0)

/-- Scan for the summary line of `git diff --stat` output. -/
def parseStatLines : List String → Nat × Nat × Nat
  | [] => (0, 0, 0)
  | line :: rest =>
    if containsL "changed".data line.data then
      parseStatParts ((splitOnChar ',' line.data).map String.mk)
    else parseStatLines rest

/-- `parse_diff_stat`: find the first line containing "changed" and read
the three counters from its comma-separated clauses (unparsable numbers
count as 0); `(0,0,0)` when no such line exists. -/
def parse_diff_stat (output : String) : Nat × Nat × Nat :=
  parseStatLines (rustLines output)

/-- The separator step of `compute_diff_for_path`: before appending a
file diff to a non-empty accumulator, pad so exactly one blank line
separates the two diffs. -/
def appendFileDiff (d fstr : String) : String :=
  if fstr = "" then d
  else
    let d' :=
      if d ≠ "" && !(strEndsWith d "\n\n") then
        (if strEndsWith d "\n" then d ++ "\n" else d ++ "\n\n")
      else d
    d' ++ fstr

/-- `compute_diff_for_path`: tracked diff against HEAD, one synthesised
`/dev/null` diff per untracked file, stats parsed from
`git diff --stat HEAD` with the untracked count added to the file
total. -/
def compute_diff_for_path (env : GitEnv) : Except GitError DiffInfo :=
  match env.diffHead with
  | .failed msg => .error (.DiffFailed msg)
  | .ran dsucc dout =>
    let diff0 := if dsucc then dout else ""
    match env.lsFiles with
    | .failed msg => .error (.DiffFailed msg)
    | .ran usucc uout =>
      let untrackedFiles := (rustLines uout).filter fun l => l ≠ ""
      let diff1 :=
        if usucc then
          untrackedFiles.foldl
            (fun d file =>
              match env.diffNoIndex file with
              | .failed _ => d
              | .ran _ fstr => appendFileDiff d fstr)
            diff0
        else diff0
      match env.diffStat with
      | .failed msg => .error (.DiffFailed msg)
      | .ran ssucc sout =>
        let stats := if ssucc then parse_diff_stat sout else (0, 0, 0)
        let fc := if usucc then stats.1 + untrackedFiles.length else stats.1
        .ok ⟨diff1, fc, stats.2.1, stats.2.2, (rustLines diff1).length, "HEAD"⟩

/-! ## Concrete fixtures used by counterexamples and witnesses -/

/-- Modelled from the spec: the synthesised `/dev/null` diff git
produces for a new untracked file `notes.txt` containing the single
line "hi", with the configured `a/` and `b/` prefixes (§4.2 of the
spec: new files appear as additions against `/dev/null`). -/
def c2SynthDiff : String :=
  "diff --git a/dev/null b/notes.txt\nnew file mode 100644\nindex 0000000..45b983b\n--- /dev/null\n+++ b/notes.txt\n@@ -0,0 +1 @@\n+hi\n"

/-- Modelled from the spec: the git-command outcomes for a worktree with
no tracked changes and exactly one untracked, non-ignored file
`notes.txt` containing "hi": the tracked diff and the stat are empty
and successful, `ls-files --others --exclude-standard` lists the one
file, and the `--no-index` diff exits 1 (files differ) with the
synthesised diff on stdout. -/
def c2Env : GitEnv where
  diffHead := .ran true ""
  lsFiles := .ran true "notes.txt\n"
  diffNoIndex := fun f => if f = "notes.txt" then .ran false c2SynthDiff else .ran true ""
  diffStat := .ran true ""

/-- A worktree session fixture with the given status. -/
def exSession (status : SessionStatus) : WorktreeSession :=
  ⟨1, 7, "Feature Auth", "feature-auth", "/data/worktrees/feature-auth-ab12cd34",
   status, .Unknown, "claude", "cc-ab12cd34", none⟩

/-- A store fixture holding one project and one session with the given
status. -/
def exState (status : SessionStatus) : AppState :=
  ⟨[(7, ⟨7, "repo", "/repo", "main", [1]⟩)], [(1, exSession status)],
   false, none, none, appVersion⟩

/-! ## Helper lemmas -/

theorem charToNat_ofNat {n : Nat} (h : n < 55296) : (Char.ofNat n).toNat = n := by
  have hv : n.isValidChar := Or.inl h
  unfold Char.ofNat
  rw [dif_pos hv]
  unfold Char.ofNatAux Char.toNat
  simp [UInt32.toNat, BitVec.toNat_ofNatLt]

theorem upper_bounds {c : Char} (h : (asciiUpper c || latin1Upper c) = true) :
    (65 ≤ c.toNat ∧ c.toNat ≤ 90) ∨ (192 ≤ c.toNat ∧ c.toNat ≤ 222) := by
  rw [Bool.or_eq_true] at h
  rcases h with h | h
  · left
    simp only [asciiUpper, Bool.and_eq_true, decide_eq_true_eq] at h
    exact h
  · right
    simp only [latin1Upper, Bool.and_eq_true, decide_eq_true_eq] at h
    exact ⟨h.1.1, h.1.2⟩

theorem rustCharToLower_toNat {c : Char} (h : (asciiUpper c || latin1Upper c) = true) :
    (rustCharToLower c).toNat = c.toNat + 32 := by
  have hb : c.toNat + 32 < 55296 := by
    rcases upper_bounds h with ⟨_, h2⟩ | ⟨_, h2⟩ <;> omega
  unfold rustCharToLower
  rw [if_pos h]
  exact charToNat_ofNat hb

theorem rustCharToLower_of_not_upper {c : Char}
    (h : (asciiUpper c || latin1Upper c) = false) : rustCharToLower c = c := by
  unfold rustCharToLower
  rw [h]
  rfl

theorem rustCharToLower_idem (c : Char) :
    rustCharToLower (rustCharToLower c) = rustCharToLower c := by
  by_cases h : (asciiUpper c || latin1Upper c) = true
  · have ht := rustCharToLower_toNat h
    have hne : (asciiUpper (rustCharToLower c) || latin1Upper (rustCharToLower c)) = false := by
      have hb := upper_bounds h
      simp only [asciiUpper, latin1Upper, ht, Bool.or_eq_false_iff, Bool.and_eq_false_iff,
        decide_eq_false_iff_not]
      rcases hb with ⟨h1, h2⟩ | ⟨h1, h2⟩ <;> omega
    exact rustCharToLower_of_not_upper hne
  · have hf : (asciiUpper c || latin1Upper c) = false := by
      revert h
      cases asciiUpper c || latin1Upper c <;> simp
    rw [rustCharToLower_of_not_upper hf, rustCharToLower_of_not_upper hf]

theorem sanitizeKeep_idem (c : Char) : sanitizeKeep (sanitizeKeep c) = sanitizeKeep c := by
  unfold sanitizeKeep
  by_cases h : (rustCharIsAlphanumeric c || decide (c = '-') || decide (c = '_')) = true
  · simp [h]
  · simp only [Bool.not_eq_true] at h
    simp [h]

theorem sanitizeKeep_lower_fixed (c : Char) :
    rustCharToLower (sanitizeKeep (rustCharToLower c)) = sanitizeKeep (rustCharToLower c) := by
  unfold sanitizeKeep
  by_cases h : (rustCharIsAlphanumeric (rustCharToLower c) || decide (rustCharToLower c = '-')
      || decide (rustCharToLower c = '_')) = true
  · simp only [h, if_true]
    exact rustCharToLower_idem c
  · simp only [Bool.not_eq_true] at h
    simp [h]
    decide

theorem head?_dropWhile {p : Char → Bool} {l : List Char} {a : Char}
    (h : (l.dropWhile p).head? = some a) : p a = false := by
  induction l with
  | nil => simp [List.dropWhile] at h
  | cons b t ih =>
    by_cases hb : p b = true
    · rw [List.dropWhile_cons_of_pos hb] at h
      exact ih h
    · rw [List.dropWhile_cons_of_neg hb] at h
      simp at h
      subst h
      simpa using hb

theorem dropWhile_of_head_false {p : Char → Bool} {l : List Char}
    (h : ∀ a, l.head? = some a → p a = false) : l.dropWhile p = l := by
  cases l with
  | nil => rfl
  | cons b t =>
    have := h b rfl
    simp [List.dropWhile, this]

theorem getLast?_dropWhile {p : Char → Bool} {l : List Char}
    (h : l.dropWhile p ≠ []) : (l.dropWhile p).getLast? = l.getLast? := by
  induction l with
  | nil => simp [List.dropWhile] at h
  | cons b t ih =>
    by_cases hb : p b = true
    · rw [List.dropWhile_cons_of_pos hb] at h ⊢
      have ht : t ≠ [] := by
        intro he
        subst he
        simp [List.dropWhile] at h
      cases t with
      | nil => exact absurd rfl ht
      | cons c u => rw [ih h, List.getLast?_cons_cons]
    · rw [List.dropWhile_cons_of_neg hb]

theorem trimDash_idem (l : List Char) : trimDashList (trimDashList l) = trimDashList l := by
  unfold trimDashList
  by_cases hX : (l.dropWhile (· = '-')).reverse.dropWhile (· = '-') = []
  · rw [hX]
    rfl
  · set D := l.dropWhile (· = '-') with hD
    set X := D.reverse.dropWhile (· = '-') with hXdef
    have h1 : X.reverse.dropWhile (· = '-') = X.reverse := by
      apply dropWhile_of_head_false
      intro a ha
      rw [List.head?_reverse] at ha
      rw [getLast?_dropWhile hX, List.getLast?_reverse] at ha
      exact head?_dropWhile ha
    rw [h1, List.reverse_reverse]
    have h2 : X.dropWhile (· = '-') = X := by
      apply dropWhile_of_head_false
      intro a ha
      exact head?_dropWhile ha
    rw [h2]

theorem map_fixed_of_mem {f : Char → Char} {l : List Char}
    (h : ∀ c ∈ l, f c = c) : l.map f = l := by
  induction l with
  | nil => rfl
  | cons b t ih =>
    simp only [List.map_cons, h b (List.mem_cons_self b t)]
    rw [ih fun c hc => h c (List.mem_cons_of_mem b hc)]

theorem mem_of_mem_trimDash {c : Char} {l : List Char}
    (h : c ∈ trimDashList l) : c ∈ l := by
  unfold trimDashList at h
  rw [List.mem_reverse] at h
  have h1 := (List.dropWhile_sublist (l := (l.dropWhile (· = '-')).reverse) (p := (· = '-'))).mem h
  rw [List.mem_reverse] at h1
  exact (List.dropWhile_sublist (l := l) (p := (· = '-'))).mem h1

theorem mem_sanitize_shape {c : Char} {t : String}
    (hc : c ∈ trimDashList ((t.data.map rustCharToLower).map sanitizeKeep)) :
    ∃ x, c = sanitizeKeep (rustCharToLower x) := by
  have hmem := mem_of_mem_trimDash hc
  rw [List.mem_map] at hmem
  obtain ⟨d, hd, rfl⟩ := hmem
  rw [List.mem_map] at hd
  obtain ⟨x, hx, rfl⟩ := hd
  exact ⟨x, rfl⟩

theorem sanitize_name_idem (t : String) :
    sanitize_name (sanitize_name t) = sanitize_name t := by
  unfold sanitize_name rustToLowercase
  have hlow : List.map rustCharToLower
      (trimDashList ((t.data.map rustCharToLower).map sanitizeKeep)) =
      trimDashList ((t.data.map rustCharToLower).map sanitizeKeep) := by
    apply map_fixed_of_mem
    intro c hc
    obtain ⟨x, rfl⟩ := mem_sanitize_shape hc
    exact sanitizeKeep_lower_fixed x
  have hkeep : List.map sanitizeKeep
      (trimDashList ((t.data.map rustCharToLower).map sanitizeKeep)) =
      trimDashList ((t.data.map rustCharToLower).map sanitizeKeep) := by
    apply map_fixed_of_mem
    intro c hc
    obtain ⟨x, rfl⟩ := mem_sanitize_shape hc
    exact sanitizeKeep_idem (rustCharToLower x)
  rw [hlow, hkeep, trimDash_idem]

theorem append_tmp_ne (p : String) : ¬ (p ++ ".tmp" = p) := by
  intro h
  have hl : (p ++ ".tmp").length = p.length := congrArg String.length h
  have hd : (p ++ ".tmp").data = p.data ++ ".tmp".data := rfl
  have : (p ++ ".tmp").length = p.length + 4 := by
    show (p ++ ".tmp").data.length = p.data.length + 4
    rw [hd, List.length_append]
    rfl
  omega

/-- Claim C3 counterexample: on the title `"é"` the implementation keeps
the (Unicode-alphanumeric) character while the claim's ASCII rule
replaces and strips it. -/
theorem sanitize_name_ascii_counterexample :
    sanitize_name "é" ≠ claim_sanitise_ascii "é" := by decide

/-- Claim C3 (amended): `sanitize_name` equals the spec's
lowercase/replace/strip pipeline with the implementation's Unicode
alphanumeric class, and the two boundary examples hold. -/
theorem sanitize_name_spec :
    (∀ title, sanitize_name title = spec_sanitise_unicode title) ∧
    sanitize_name "Feature/Auth" = "feature-auth" ∧
    sanitize_name "--test--" = "test" :=
  ⟨fun _ => rfl, by decide, by decide⟩

/-- Claim C4 counterexample: with the configured branch prefix `"cc"`
and title `"a"`, deriving twice yields `cc/cc-a`, not `cc/a`. -/
theorem generate_branch_name_not_idem :
    generate_branch_name "cc" (generate_branch_name "cc" "a") ≠
      generate_branch_name "cc" "a" := by decide

/-- Claim C4 (amended): branch-name derivation is idempotent when the
configured branch prefix is empty. -/
theorem generate_branch_name_idem_empty_config :
    ∀ title, generate_branch_name "" (generate_branch_name "" title) =
      generate_branch_name "" title := by
  intro title
  simp only [generate_branch_name, if_pos rfl]
  exact sanitize_name_idem title

/-- Claim C1 counterexample: the trace of `AppState::save_to` on a
concrete path is not the write-temporary-then-rename shape the claim
describes. -/
theorem save_to_not_atomic :
    ¬ atomicTmpRenameSave "/data/state.json" "\x7b\x7d"
        (AppState.save_to "/data/state.json" "\x7b\x7d") := by
  unfold atomicTmpRenameSave
  decide

/-- Claim C1 (amended): every save writes the serialised document
directly to the target path; the trace contains no rename and no write
to the `.tmp` sibling. -/
theorem save_to_direct_write : ∀ path content,
    FsOp.writeFile path content ∈ AppState.save_to path content ∧
    (AppState.save_to path content).all (fun op => !op.isRename) = true ∧
    noWriteTo (path ++ ".tmp") (AppState.save_to path content) = true := by
  intro path content
  unfold AppState.save_to noWriteTo
  have hne : decide (path ≠ path ++ ".tmp") = true :=
    decide_eq_true fun h => append_tmp_ne path h.symm
  cases hp : parentDir path with
  | none =>
    refine ⟨by simp, rfl, ?_⟩
    simp [List.all, hne]
  | some parent =>
    refine ⟨by simp, rfl, ?_⟩
    simp [List.all, hne, FsOp.isRename]

/-- Claim C2 counterexample: in the one-new-untracked-file scenario the
computed summary has `lines_added = 0`, not 1 — line counts are parsed
only from the tracked-change stat output, which is empty here. -/
theorem diff_new_file_lines_added_zero :
    (compute_diff_for_path c2Env).toOption.map DiffInfo.lines_added = some 0 ∧
    (compute_diff_for_path c2Env).toOption.map DiffInfo.lines_added ≠ some 1 := by
  constructor
  · decide
  · decide

/-- Claim C2 (amended): the one-new-untracked-file scenario yields
`files_changed = 1`, a diff containing `+++ b/notes.txt`, and
`lines_added = 0`. -/
theorem diff_new_file_summary :
    (compute_diff_for_path c2Env).toOption.map DiffInfo.files_changed = some 1 ∧
    (compute_diff_for_path c2Env).toOption.map
      (fun i => containsL "+++ b/notes.txt".data i.diff.data) = some true ∧
    (compute_diff_for_path c2Env).toOption.map DiffInfo.lines_added = some 0 := by
  refine ⟨by decide, by decide, by decide⟩

/-- Claim C5: the classifier is a deterministic function of the last 50
lines; it returns the highest-priority matching state in the order
error > processing > waiting-for-input > unknown; and the three boundary
examples hold. -/
theorem detect_spec :
    (∀ s t : CapturedContent,
        lastN 50 (rustLinesL s.content.data) = lastN 50 (rustLinesL t.content.data) →
        StateDetector.new.detect s = StateDetector.new.detect t) ∧
    (∀ s : CapturedContent,
        stateMatchesRecent (StateDetector.new.recentContent s) (StateDetector.new.detect s) = true ∧
        ∀ a, stateMatchesRecent (StateDetector.new.recentContent s) a = true →
          statePriority a ≤ statePriority (StateDetector.new.detect s)) ∧
    StateDetector.new.detect ⟨"Error: x\n> "⟩ = .Error ∧
    StateDetector.new.detect ⟨"Processing ⠋"⟩ = .Processing ∧
    StateDetector.new.detect ⟨"Thinking..."⟩ = .Processing := by
  refine ⟨?_, ?_, by decide, by decide, by decide⟩
  · intro s t h
    unfold StateDetector.detect StateDetector.recentContent
    rw [show StateDetector.new.analyze_lines = 50 from rfl, h]
  · intro s
    unfold StateDetector.detect
    by_cases he : errMatchesL (StateDetector.new.recentContent s) = true
    · simp only [he, if_true]
      refine ⟨he, ?_⟩
      intro a _
      cases a <;> simp [statePriority]
    · rw [Bool.not_eq_true] at he
      by_cases hp : procMatchesL (StateDetector.new.recentContent s) = true
      · simp only [he, hp, if_true, Bool.false_eq_true, if_false]
        refine ⟨hp, ?_⟩
        intro a ha
        cases a <;> simp_all [statePriority, stateMatchesRecent]
      · rw [Bool.not_eq_true] at hp
        by_cases hw : promptMatchesL (StateDetector.new.recentContent s) = true
        · simp only [he, hp, hw, if_true, Bool.false_eq_true, if_false]
          refine ⟨hw, ?_⟩
          intro a ha
          cases a <;> simp_all [statePriority, stateMatchesRecent]
        · rw [Bool.not_eq_true] at hw
          simp only [he, hp, hw, Bool.false_eq_true, if_false]
          refine ⟨rfl, ?_⟩
          intro a ha
          cases a <;> simp_all [statePriority, stateMatchesRecent]

/-- Witness for `detect_spec`: the determinism clause applied to two
captures that differ only in a carriage return but share the same
line tail. -/
theorem detect_spec_witness :
    StateDetector.new.detect ⟨"a\r\nb"⟩ = StateDetector.new.detect ⟨"a\nb"⟩ :=
  detect_spec.1 ⟨"a\r\nb"⟩ ⟨"a\nb"⟩ (by decide)

/-- Rust's `str::lines` keeps a bare trailing carriage return, so a
long final line ending in `\r` fails the streaming heuristic (`\r` is
whitespace) and classifies as unknown, while the same line without the
`\r` classifies as processing. -/
theorem detect_bare_cr :
    rustLines "baz\r" = ["baz\r"] ∧
    StateDetector.new.detect ⟨"aaaaaaaaaaa\r"⟩ = .Unknown ∧
    StateDetector.new.detect ⟨"aaaaaaaaaaa"⟩ = .Processing := by
  refine ⟨by decide, by decide, by decide⟩

/-- Claim C6: pause requires running, resume requires paused, attach
requires running-or-paused; in any other lifecycle state the operation
fails with `InvalidState` and leaves the store untouched. -/
theorem pause_session_eq (st : AppState) (sid : Nat) (s : WorktreeSession)
    (sv : Option ConfigError) (h : st.get_session sid = some s) :
    pause_session st sid sv =
      (if !s.status.can_pause then (.error (.session (.InvalidState sid)), st)
       else
        match sv with
        | some e => (.error (.config e), setSessionStatus st sid .Paused)
        | none => (.ok (), setSessionStatus st sid .Paused)) := by
  unfold pause_session
  rw [h]

theorem resume_session_eq (st : AppState) (sid : Nat) (s : WorktreeSession)
    (er : Except Error Bool) (cr : Except Error Unit) (sv : Option ConfigError)
    (h : st.get_session sid = some s) :
    resume_session st sid er cr sv =
      (if !s.status.can_resume then (.error (.session (.InvalidState sid)), st)
       else
        match er with
        | .error e => (.error e, st)
        | .ok ex =>
          match if ex then Except.ok () else cr with
          | .error e => (.error e, st)
          | .ok _ =>
            match sv with
            | some e => (.error (.config e), setSessionStatus st sid .Running)
            | none => (.ok (), setSessionStatus st sid .Running)) := by
  unfold resume_session
  rw [h]

theorem get_attach_command_eq (st : AppState) (sid : Nat) (s : WorktreeSession)
    (er : Except Error Bool) (pd : Except Error Bool)
    (h : st.get_session sid = some s) :
    get_attach_command st sid er pd =
      (if !s.status.can_attach then (.error (.session (.InvalidState sid)), st)
       else
        match er with
        | .error e => (.error e, st)
        | .ok ex =>
          if !ex then
            (.error (.session (.TmuxSessionNotFound s.tmux_session_name)),
              setSessionStatus st sid .Stopped)
          else if (pd.toOption).getD false then
            (.error (.session (.TmuxSessionNotFound
              (s.tmux_session_name ++ " (program exited)"))),
              setSessionStatus st sid .Stopped)
          else
            (.ok ("tmux attach-session -t " ++ s.tmux_session_name), st)) := by
  unfold get_attach_command
  rw [h]

theorem lifecycle_preconditions (st : AppState) (sid : Nat) (s : WorktreeSession)
    (h : st.get_session sid = some s) :
    (s.status ≠ .Running → ∀ sv, pause_session st sid sv =
        (.error (.session (.InvalidState sid)), st)) ∧
    (∀ sv u, (pause_session st sid sv).1 = .ok u → s.status = .Running) ∧
    (s.status ≠ .Paused → ∀ er cr sv, resume_session st sid er cr sv =
        (.error (.session (.InvalidState sid)), st)) ∧
    (∀ er cr sv u, (resume_session st sid er cr sv).1 = .ok u → s.status = .Paused) ∧
    (s.status = .Stopped → ∀ er pd, get_attach_command st sid er pd =
        (.error (.session (.InvalidState sid)), st)) ∧
    (∀ er pd out, (get_attach_command st sid er pd).1 = .ok out →
        s.status = .Running ∨ s.status = .Paused) := by
  refine ⟨?_, ?_, ?_, ?_, ?_, ?_⟩
  · intro hs sv
    rw [pause_session_eq st sid s sv h]
    have hc : s.status.can_pause = false := by
      cases hst : s.status <;> simp_all [SessionStatus.can_pause]
    simp [hc]
  · intro sv u hok
    rw [pause_session_eq st sid s sv h] at hok
    cases hst : s.status
    · rfl
    · rw [hst] at hok
      simp [SessionStatus.can_pause] at hok
    · rw [hst] at hok
      simp [SessionStatus.can_pause] at hok
  · intro hs er cr sv
    rw [resume_session_eq st sid s er cr sv h]
    have hc : s.status.can_resume = false := by
      cases hst : s.status <;> simp_all [SessionStatus.can_resume]
    simp [hc]
  · intro er cr sv u hok
    rw [resume_session_eq st sid s er cr sv h] at hok
    cases hst : s.status
    · rw [hst] at hok
      simp [SessionStatus.can_resume] at hok
    · rfl
    · rw [hst] at hok
      simp [SessionStatus.can_resume] at hok
  · intro hs er pd
    rw [get_attach_command_eq st sid s er pd h]
    have hc : s.status.can_attach = false := by
      rw [hs]
      rfl
    simp [hc]
  · intro er pd out hok
    rw [get_attach_command_eq st sid s er pd h] at hok
    cases hst : s.status
    · exact Or.inl rfl
    · exact Or.inr rfl
    · rw [hst] at hok
      simp [SessionStatus.can_attach] at hok

/-- Witness for `lifecycle_preconditions`: pausing a stopped session
fails with `InvalidState` and leaves the store unchanged. -/
theorem lifecycle_preconditions_witness :
    pause_session (exState .Stopped) 1 none =
      (.error (.session (.InvalidState 1)), exState .Stopped) :=
  (lifecycle_preconditions (exState .Stopped) 1 (exSession .Stopped) rfl).1
    (by decide) none

/-- Claim C7: `session_exists` maps a `CommandFailed`-class outcome of
`has-session` (non-zero exit, or spawn failure) to `Ok(false)`,
propagates every other failure such as `Timeout` unchanged, and reports
success as `Ok(true)`. -/
theorem session_exists_spec (e : TmuxExecutor) (name : String) :
    (∀ out stderr, e.session_exists name (.completed false out stderr) = .ok false) ∧
    (∀ msg, e.session_exists name (.spawnFailed msg) = .ok false) ∧
    (∀ out stderr, e.session_exists name (.completed true out stderr) = .ok true) ∧
    (e.session_exists name .timedOut = .error (.tmux (.Timeout e.timeoutMs))) ∧
    (∀ outcome err, e.execute ["has-session", "-t", name] outcome = .error err →
      err.isCommandFailed = false → e.session_exists name outcome = .error err) := by
  refine ⟨fun _ _ => rfl, fun _ => rfl, fun _ _ => rfl, rfl, ?_⟩
  intro outcome err hout hnc
  unfold TmuxExecutor.session_exists
  rw [hout]
  cases err with
  | tmux te =>
    cases te <;> first
      | rfl
      | (exfalso; simp [Error.isCommandFailed] at hnc)
  | _ => rfl

/-- Witness for `session_exists_spec`: a timeout of the underlying
command propagates as the `Timeout` error. -/
theorem session_exists_spec_witness :
    TmuxExecutor.new.session_exists "cc-ab12cd34" .timedOut =
      .error (.tmux (.Timeout 5000)) :=
  (session_exists_spec TmuxExecutor.new "cc-ab12cd34").2.2.2.2 .timedOut
    (.tmux (.Timeout 5000)) rfl rfl

theorem mem_mapInsert {α : Type} {m : List (Nat × α)} {k : Nat} {v : α} {e : Nat × α}
    (h : e ∈ mapInsert m k v) : e ∈ m ∨ e = (k, v) := by
  unfold mapInsert at h
  by_cases ha : m.any (fun e => e.1 = k) = true
  · rw [if_pos ha] at h
    rw [List.mem_map] at h
    obtain ⟨a, haa, he⟩ := h
    by_cases hk : a.1 = k
    · rw [if_pos hk] at he
      exact Or.inr he.symm
    · rw [if_neg hk] at he
      exact Or.inl (he ▸ haa)
  · rw [if_neg ha] at h
    rw [List.mem_append] at h
    rcases h with h | h
    · exact Or.inl h
    · simp at h
      exact Or.inr h

theorem mem_mapUpdate {α : Type} {m : List (Nat × α)} {k : Nat} {f : α → α} {e : Nat × α}
    (h : e ∈ mapUpdate m k f) : ∃ a ∈ m, e = if a.1 = k then (a.1, f a.2) else a := by
  unfold mapUpdate at h
  rw [List.mem_map] at h
  obtain ⟨a, haa, he⟩ := h
  exact ⟨a, haa, he.symm⟩

theorem mem_mapRemove {α : Type} {m : List (Nat × α)} {k : Nat} {e : Nat × α}
    (h : e ∈ mapRemove m k) : e ∈ m := by
  unfold mapRemove at h
  exact List.mem_of_mem_filter h

theorem mapGet_mapUpdate_ne {α : Type} (m : List (Nat × α)) (k q : Nat) (f : α → α)
    (h : q ≠ k) : mapGet (mapUpdate m k f) q = mapGet m q := by
  unfold mapGet mapUpdate
  induction m with
  | nil => rfl
  | cons e t ih =>
    rw [List.map_cons]
    by_cases hek : e.1 = k
    · rw [if_pos hek]
      rw [List.find?_cons_of_neg, List.find?_cons_of_neg]
      · exact ih
      · simp only [decide_eq_true_eq]
        intro hc
        omega
      · simp only [decide_eq_true_eq]
        intro hc
        omega
    · rw [if_neg hek]
      by_cases heq : e.1 = q
      · rw [List.find?_cons_of_pos, List.find?_cons_of_pos]
        · simp only [decide_eq_true_eq]
          exact heq
        · simp only [decide_eq_true_eq]
          exact heq
      · rw [List.find?_cons_of_neg, List.find?_cons_of_neg]
        · exact ih
        · simp only [decide_eq_true_eq]
          exact heq
        · simp only [decide_eq_true_eq]
          exact heq

theorem mapGet_mapUpdate_self {α : Type} (m : List (Nat × α)) (k : Nat) (f : α → α) :
    mapGet (mapUpdate m k f) k = (mapGet m k).map f := by
  unfold mapGet mapUpdate
  induction m with
  | nil => rfl
  | cons e t ih =>
    rw [List.map_cons]
    by_cases hek : e.1 = k
    · rw [if_pos hek]
      rw [List.find?_cons_of_pos, List.find?_cons_of_pos]
      · rfl
      · simp only [decide_eq_true_eq]
        exact hek
      · simp only [decide_eq_true_eq]
        exact hek
    · rw [if_neg hek]
      rw [List.find?_cons_of_neg, List.find?_cons_of_neg]
      · exact ih
      · simp only [decide_eq_true_eq]
        exact hek
      · simp only [decide_eq_true_eq]
        exact hek

theorem add_worktree_nodup {p : Project} (h : p.worktrees.Nodup) (sid : Nat) :
    (p.add_worktree sid).worktrees.Nodup := by
  unfold Project.add_worktree
  by_cases hm : sid ∈ p.worktrees
  · rw [if_pos hm]
    exact h
  · rw [if_neg hm]
    simp only []
    rw [List.nodup_append]
    exact ⟨h, List.nodup_singleton sid, by simpa using hm⟩

theorem applyOp_preserves (st : AppState) (op : StoreOp)
    (h : projChildrenNodup st) : projChildrenNodup (applyOp st op) := by
  cases op with
  | addProject id name repo main =>
    show projChildrenNodup (st.add_project (Project.new id name repo main))
    intro e he
    rcases mem_mapInsert he with he | he
    · exact h e he
    · rw [he]
      exact List.nodup_nil
  | removeProject pid =>
    show projChildrenNodup (st.remove_project pid)
    unfold AppState.remove_project
    cases hg : mapGet st.projects pid with
    | none => exact h
    | some p =>
      intro e he
      exact h e (mem_mapRemove he)
  | addSession s =>
    show projChildrenNodup (st.add_session s)
    simp only [AppState.add_session]
    cases hg : mapGet st.projects s.project_id with
    | none =>
      intro e he
      exact h e he
    | some p =>
      intro e he
      have he2 : e ∈ mapUpdate st.projects s.project_id (fun p => p.add_worktree s.id) := he
      obtain ⟨a, haa, he⟩ := mem_mapUpdate he2
      by_cases hak : a.1 = s.project_id
      · rw [if_pos hak] at he
        rw [he]
        exact add_worktree_nodup (h a haa) s.id
      · rw [if_neg hak] at he
        rw [he]
        exact h a haa
  | removeSession sid =>
    show projChildrenNodup (st.remove_session sid)
    simp only [AppState.remove_session]
    cases hg : mapGet st.sessions sid with
    | none => exact h
    | some s =>
      intro e he
      have he2 : e ∈ mapUpdate st.projects s.project_id (fun p => p.remove_worktree sid) := he
      obtain ⟨a, haa, he⟩ := mem_mapUpdate he2
      by_cases hak : a.1 = s.project_id
      · rw [if_pos hak] at he
        rw [he]
        exact (h a haa).filter _
      · rw [if_neg hak] at he
        rw [he]
        exact h a haa

/-- Claim C8: `add_worktree` is a no-op when the id is already present,
and after any sequence of store operations starting from the empty
state, every project's child list is duplicate-free. -/
theorem project_children_nodup :
    (∀ (p : Project) (sid : Nat), sid ∈ p.worktrees → p.add_worktree sid = p) ∧
    (∀ ops : List StoreOp, projChildrenNodup (applyOps AppState.new ops)) := by
  constructor
  · intro p sid hmem
    unfold Project.add_worktree
    rw [if_pos hmem]
  · have hgen : ∀ (ops : List StoreOp) (st : AppState),
        projChildrenNodup st → projChildrenNodup (applyOps st ops) := by
      intro ops
      induction ops with
      | nil => exact fun st h => h
      | cons op rest ih =>
        intro st h
        exact ih (applyOp st op) (applyOp_preserves st op h)
    intro ops
    apply hgen
    intro e he
    simp [AppState.new] at he


/-- Witness for `project_children_nodup`: adding an already-present
session id to a project's child list leaves the project unchanged. -/
theorem project_children_nodup_witness :
    Project.add_worktree ⟨7, "repo", "/repo", "main", [1]⟩ 1 =
      ⟨7, "repo", "/repo", "main", [1]⟩ :=
  project_children_nodup.1 ⟨7, "repo", "/repo", "main", [1]⟩ 1 (by decide)

theorem foldl_detect_preserve (detectRes : Nat → Except Error AgentState)
    (sid : Nat) (e : Error) (hd : detectRes sid = .error e) :
    ∀ (ids : List Nat) (acc : AppState),
      mapGet (ids.foldl (fun acc i =>
        match detectRes i with
        | .ok a => setAgentState acc i a
        | .error _ => acc) acc).sessions sid = mapGet acc.sessions sid := by
  intro ids
  induction ids with
  | nil => intro acc; rfl
  | cons i rest ih =>
    intro acc
    rw [List.foldl_cons]
    cases hdi : detectRes i with
    | error er =>
      rw [ih acc]
    | ok a =>
      rw [ih (setAgentState acc i a)]
      have hne : sid ≠ i := by
        intro hc
        rw [hc, hdi] at hd
        exact Except.noConfusion hd
      have hx : (setAgentState acc i a).sessions =
          mapUpdate acc.sessions i (fun s => { s with agent_state := a }) := rfl
      rw [hx]
      exact mapGet_mapUpdate_ne acc.sessions i sid _ hne

/-- Claim C9: `update_all_states` always returns `Ok(())`, and a session
whose state detection fails keeps its previous stored entry (in
particular its previous activity state). -/
theorem update_all_states_total (st : AppState)
    (detectRes : Nat → Except Error AgentState) :
    (update_all_states st detectRes).1 = .ok () ∧
    ∀ sid e, detectRes sid = .error e →
      (update_all_states st detectRes).2.get_session sid = st.get_session sid := by
  constructor
  · rfl
  · intro sid e hd
    exact foldl_detect_preserve detectRes sid e hd (st.get_active_sessions.map (·.id)) st

/-- Witness for `update_all_states_total`: with every detection failing,
the refresh still succeeds and the running session's entry is
untouched. -/
theorem update_all_states_total_witness :
    (update_all_states (exState .Running) (fun _ => .error (.tmux .NotInstalled))).1 =
      .ok () ∧
    (update_all_states (exState .Running)
        (fun _ => .error (.tmux .NotInstalled))).2.get_session 1 =
      (exState .Running).get_session 1 :=
  ⟨(update_all_states_total (exState .Running) (fun _ => .error (.tmux .NotInstalled))).1,
   (update_all_states_total (exState .Running) (fun _ => .error (.tmux .NotInstalled))).2
     1 (.tmux .NotInstalled) rfl⟩

theorem kill_session_eq (st : AppState) (sid : Nat) (s : WorktreeSession)
    (rw : Bool) (killRes : Except Error Unit) (openOk : Bool)
    (wtr : Except ConfigError String) (removeRes : Except Error Unit)
    (sv : Option ConfigError) (h : st.get_session sid = some s) :
    kill_session st sid rw killRes openOk wtr removeRes sv =
      (match
        (if rw then
          match st.get_project s.project_id with
          | some _ =>
            if openOk then
              match wtr with
              | .error e => some e
              | .ok _ => none
            else none
          | none => none
        else none) with
      | some e => (.error (.config e), st)
      | none =>
        match sv with
        | some e => (.error (.config e), setSessionStatus st sid .Stopped)
        | none => (.ok (), setSessionStatus st sid .Stopped)) := by
  unfold kill_session
  rw [h]

/-- Claim C10: `kill_session` has no lifecycle precondition: on any
session present in the store it never fails with `InvalidState`; when
the propagating calls (`worktrees_dir`, `save`) succeed it returns `Ok`
and the session's lifecycle state is `Stopped`, whatever it was before
(so killing an already-stopped session is idempotent on the lifecycle
state). -/
theorem kill_session_no_precondition (st : AppState) (sid : Nat) (s : WorktreeSession)
    (h : st.get_session sid = some s) :
    (∀ rw killRes openOk wtr removeRes sv e,
        (kill_session st sid rw killRes openOk wtr removeRes sv).1 = .error e →
        e.isInvalidState = false) ∧
    (∀ rw killRes openOk d removeRes,
        kill_session st sid rw killRes openOk (.ok d) removeRes none =
          (.ok (), setSessionStatus st sid .Stopped)) ∧
    (setSessionStatus st sid .Stopped).get_session sid =
      some { s with status := .Stopped } := by
  refine ⟨?_, ?_, ?_⟩
  · intro rw killRes openOk wtr removeRes sv e herr
    rw [kill_session_eq st sid s rw killRes openOk wtr removeRes sv h] at herr
    cases rw <;> cases openOk <;>
      rcases hp : st.get_project s.project_id with _ | p <;>
      simp only [hp] at herr <;>
      cases wtr <;> cases sv <;>
      simp at herr <;>
      exact herr ▸ rfl
  · intro rw killRes openOk d removeRes
    rw [kill_session_eq st sid s rw killRes openOk (.ok d) removeRes none h]
    cases rw <;> cases openOk <;>
      rcases hp : st.get_project s.project_id with _ | p <;>
      simp [hp]
  · unfold AppState.get_session at h ⊢
    unfold setSessionStatus
    rw [mapGet_mapUpdate_self, h]
    rfl

/-- Witness for `kill_session_no_precondition`: killing an
already-stopped session succeeds and leaves it stopped, and a failing
save surfaces an error that is not `InvalidState`. -/
theorem kill_session_no_precondition_witness :
    (kill_session (exState .Stopped) 1 true (.ok ()) true (.ok "/data/worktrees")
        (.ok ()) none =
      (.ok (), setSessionStatus (exState .Stopped) 1 .Stopped)) ∧
    (setSessionStatus (exState .Stopped) 1 .Stopped).get_session 1 =
      some { exSession .Stopped with status := .Stopped } ∧
    Error.isInvalidState (.config (.SaveFailed "disk full")) = false :=
  ⟨(kill_session_no_precondition (exState .Stopped) 1 (exSession .Stopped) rfl).2.1
      true (.ok ()) true "/data/worktrees" (.ok ()),
   (kill_session_no_precondition (exState .Stopped) 1 (exSession .Stopped) rfl).2.2,
   (kill_session_no_precondition (exState .Stopped) 1 (exSession .Stopped) rfl).1
      true (.ok ()) true (.ok "/data/worktrees") (.ok ())
      (some (.SaveFailed "disk full")) (.config (.SaveFailed "disk full")) rfl⟩
